import Mathlib

/-!
Shallow embedding of `.github/workflows/scripts/validate_taxonomy.py`
(datafoodconsortium/vocabularies).

Python strings are modelled as Lean `String`s, with the string operations the
script uses (`str.split(sep)`, substring membership `x in s`, the regular
expressions of the `NamingPattern` enum) implemented character-wise on
`String.data`, mirroring CPython semantics.  Parsed JSON documents
(`json.loads` output) are modelled by the inductive `Json`; Python `dict`s
become association lists in insertion order.  Code paths on which CPython
raises an exception (`AttributeError` from calling `.split`/`.get` on a
non-string/non-dict, `TypeError` from `in`/indexing on a non-container) are
modelled with `Except PyError`.
-/

namespace TaxonomyScript

/-- CPython `s.split(sep)` for a one-character separator `sep`, on the list of
characters of `s`: always returns a non-empty list, `[[]]` on the empty
string, and keeps empty segments between adjacent separators. -/
def splitOnChar (sep : Char) : List Char → List (List Char)
  | [] => [[]]
  | c :: rest =>
    match splitOnChar sep rest with
    | [] => if c = sep then [[], []] else [[c]]
    | seg :: segs => if c = sep then [] :: seg :: segs else (c :: seg) :: segs

/-- Character-list version of "`pat` is an initial segment of `cs`". -/
def startsWithChars : List Char → List Char → Bool
  | _, [] => true
  | [], _ :: _ => false
  | c :: cs, p :: ps => c = p && startsWithChars cs ps

/-- CPython substring membership `pat in cs` (`True` on the empty pattern). -/
def containsChars : List Char → List Char → Bool
  | [], pat => pat.isEmpty
  | c :: rest, pat => startsWithChars (c :: rest) pat || containsChars rest pat

/-- Parsed JSON values, the output of `json.loads`: objects keep their fields
as an association list in insertion order. -/
inductive Json where
  | str (s : String)
  | num (n : Int)
  | bool (b : Bool)
  | null
  | arr (items : List Json)
  | obj (fields : List (String × Json))

/-- Python `dict` lookup `d.get(key)` on the association-list model: the first
binding of `key` (CPython dicts have unique keys). -/
def lookupField (fields : List (String × Json)) (key : String) : Option Json :=
  match fields.find? (fun p => p.1 == key) with
  | some p => some p.2
  | none => none

/-- The `NamingPattern` enum of the script (three regex/message pairs). -/
inductive NamingPattern where
  | ALPHANUM
  | PASCAL
  | CAMEL
deriving DecidableEq

/-- The `message` payload of each `NamingPattern` member. -/
def NamingPattern.message : NamingPattern → String
  | .ALPHANUM => "Must be alphanumeric starting with a letter"
  | .PASCAL => "Concepts must use PascalCase"
  | .CAMEL => "Properties must use camelCase"

def isAsciiLowerChar (c : Char) : Bool := 'a' ≤ c && c ≤ 'z'

def isAsciiUpperChar (c : Char) : Bool := 'A' ≤ c && c ≤ 'Z'

def isAsciiDigitChar (c : Char) : Bool := '0' ≤ c && c ≤ '9'

/-- The regex character class `[a-zA-Z0-9]`. -/
def isAsciiAlnumChar (c : Char) : Bool :=
  isAsciiLowerChar c || isAsciiUpperChar c || isAsciiDigitChar c

/-- The first-character class of each pattern's regex: `[a-zA-Z]` for
`ALPHANUM`, `[A-Z]` for `PASCAL`, `[a-z]` for `CAMEL`. -/
def NamingPattern.firstCharOk : NamingPattern → Char → Bool
  | .ALPHANUM, c => isAsciiLowerChar c || isAsciiUpperChar c
  | .PASCAL, c => isAsciiUpperChar c
  | .CAMEL, c => isAsciiLowerChar c

/-- Match of the regex body `[X][a-zA-Z0-9]*` against a whole character list,
where `[X]` is the pattern's first-character class. -/
def coreMatch (p : NamingPattern) : List Char → Bool
  | [] => false
  | c :: rest => p.firstCharOk c && rest.all isAsciiAlnumChar

/-- Match of `[X][a-zA-Z0-9]*$` under Python `$` semantics: `$` matches at the
end of the string or just before a single trailing newline. -/
def dollarMatch (p : NamingPattern) (cs : List Char) : Bool :=
  coreMatch p cs || (cs.getLastD ' ' == '\n' && coreMatch p cs.dropLast)

/-- The characters of the optional namespace token `dfc-m:` shared by the
three regexes. -/
def nsToken : List Char := 'd' :: 'f' :: 'c' :: '-' :: 'm' :: ':' :: []

/-- `re.match(p.pattern, s)` viewed as a Boolean, for the script's patterns
`^(?:dfc-m:)?[X][a-zA-Z0-9]*$`: either the body matches the whole string, or
the string starts with the literal token `dfc-m:` and the body matches the
remainder.  (A string starting with `dfc-m:` can never match via the first
branch, since `-` and `:` are outside `[a-zA-Z0-9]`, so this disjunction is
exactly the regex.) -/
def re_match (p : NamingPattern) (s : String) : Bool :=
  dollarMatch p s.data || (startsWithChars s.data nsToken && dollarMatch p (s.data.drop 6))

/-- The `ValidationError` dataclass: message, offending identifier, line. -/
structure ValidationError where
  message : String
  identifier : String
  line : Nat
deriving DecidableEq

/-- Exceptions the script can raise at runtime on ill-shaped parsed data. -/
inductive PyError where
  | typeError
  | attributeError
deriving DecidableEq

/-- `enumerate(lines, 1)`: pair each line with its 1-based line number. -/
def enumLines : Nat → List (List Char) → List (Nat × List Char)
  | _, [] => []
  | k, l :: rest => (k, l) :: enumLines (k + 1) rest

/-- The 5-character marker `"@id"` (with its double quotes) that
`JSONLDParser._map_ids_to_lines` looks for in each raw line. -/
def idMarker : List Char := '"' :: '@' :: 'i' :: 'd' :: '"' :: []

/-- `JSONLDParser._map_ids_to_lines`: split the raw content on newlines,
number the lines from 1, and keep exactly the lines containing `"@id"`. -/
def map_ids_to_lines (content : String) : List (Nat × List Char) :=
  (enumLines 1 (splitOnChar '\n' content.data)).filter (fun p => containsChars p.2 idMarker)

/-- `JSONLDParser.get_line_number`: the first entry of the id-line index whose
raw line contains `uri` as a substring; `0` if none does. -/
def get_line_number (content uri : String) : Nat :=
  match (map_ids_to_lines content).find? (fun p => containsChars p.2 uri.data) with
  | some p => p.1
  | none => 0

/-- The scan inside `JSONLDParser.get_node`:
`next((node for node in graph if node.get('@id') == uri), {})`.  The generator
is lazy: a non-dict element raises `AttributeError` (`.get` on it) only if it
is reached before a match; a match returns immediately.  `node.get('@id') ==
uri` is `True` exactly when the node's `@id` value is the string `uri`. -/
def find_node (uri : String) : List Json → Except PyError Json
  | [] => .ok (Json.obj [])
  | n :: rest =>
    match n with
    | .obj fields =>
      if (match lookupField fields "@id" with
          | some (.str s) => s == uri
          | _ => false) then
        .ok (Json.obj fields)
      else
        find_node uri rest
    | _ => .error .attributeError

/-- `JSONLDParser.get_node`: `'@graph' not in self.data` then
`self.data['@graph']`.  Membership / indexing follow CPython semantics on each
shape of `self.data`: key membership on dicts, element equality on lists
(indexing a list with a string raises `TypeError`), substring on strings
(likewise `TypeError` on string indexing), `TypeError` for non-containers.
Iterating a non-list `@graph` value yields keys (dict) or characters (string),
whose `.get` raises `AttributeError` unless the container is empty. -/
def get_node (data : Json) (uri : String) : Except PyError Json :=
  match data with
  | .obj fields =>
    match lookupField fields "@graph" with
    | none => .ok (Json.obj [])
    | some (.arr items) => find_node uri items
    | some (.str s) => if s.data.isEmpty then .ok (Json.obj []) else .error .attributeError
    | some (.obj gfields) => if gfields.isEmpty then .ok (Json.obj []) else .error .attributeError
    | some _ => .error .typeError
  | .arr items =>
    if items.any (fun x => match x with | .str t => t == "@graph" | _ => false) then
      .error .typeError
    else
      .ok (Json.obj [])
  | .str s =>
    if containsChars s.data ('@' :: 'g' :: 'r' :: 'a' :: 'p' :: 'h' :: []) then
      .error .typeError
    else
      .ok (Json.obj [])
  | _ => .error .typeError

/-- The characters of the concept marker `skos:Concept`. -/
def conceptMarker : List Char :=
  's' :: 'k' :: 'o' :: 's' :: ':' :: 'C' :: 'o' :: 'n' :: 'c' :: 'e' :: 'p' :: 't' :: []

/-- The concept test `'skos:Concept' in node.get('@type', [])` of
`TaxonomyValidator._validate_naming_patterns`, with CPython `in` semantics on
each shape of the `@type` value: absent `@type` defaults to `[]` (`False`);
a string is searched for the marker as a substring; a list is searched for an
element equal to the marker string; a dict is searched among its keys;
a number, Boolean or `None` raises `TypeError` (not a container). -/
def typeMembership (node : Json) : Except PyError Bool :=
  match node with
  | .obj fields =>
    match lookupField fields "@type" with
    | none => .ok false
    | some (.str s) => .ok (containsChars s.data conceptMarker)
    | some (.arr items) =>
      .ok (items.any (fun x => match x with | .str t => t == "skos:Concept" | _ => false))
    | some (.obj tfields) => .ok (tfields.any (fun p => p.1 == "skos:Concept"))
    | some _ => .error .typeError
  | _ => .error .attributeError

/-- `TaxonomyValidator._get_identifier`: if the segment after the last `/`
contains `#`, return the text after that segment's last `#`; otherwise return
the empty string. -/
def get_identifier (uri : String) : String :=
  let seg := (splitOnChar '/' uri.data).getLastD []
  if seg.contains '#' then String.mk ((splitOnChar '#' seg).getLastD []) else ""

mutual

/-- `TaxonomyValidator._extract_uris`: on a dict, the `@id` value (if any)
followed by the recursion into every value that is itself a dict or list; on
a list, the concatenation of the recursion over its items; `[]` on scalars. -/
def extract_uris : Json → List Json
  | .obj fields =>
    (match lookupField fields "@id" with
     | some v => [v]
     | none => []) ++ extractFromFields fields
  | .arr items => extractFromItems items
  | _ => []

/-- The comprehension over `data.values()` in `_extract_uris`, in insertion
order, recursing only into dict and list values. -/
def extractFromFields : List (String × Json) → List Json
  | [] => []
  | (_, v) :: rest =>
    (match v with
     | .obj _ => extract_uris v
     | .arr _ => extract_uris v
     | _ => []) ++ extractFromFields rest

/-- The comprehension over a list's items in `_extract_uris`. -/
def extractFromItems : List Json → List Json
  | [] => []
  | v :: rest => extract_uris v ++ extractFromItems rest

end

/-- `TaxonomyValidator._validate_naming_patterns`: look the node up, look the
line up, then check `ALPHANUM`; only if it passes, check the concept rule
(`PASCAL`) when `'skos:Concept' in node.get('@type', [])`.  Returns the
Boolean result together with the errors this call appends to `self.errors`. -/
def validate_naming_patterns (content : String) (data : Json) (uri identifier : String) :
    Except PyError (Bool × List ValidationError) :=
  match get_node data uri with
  | .error e => .error e
  | .ok node =>
    let line := get_line_number content uri
    if !(re_match NamingPattern.ALPHANUM identifier) then
      .ok (false, [⟨NamingPattern.ALPHANUM.message, identifier, line⟩])
    else
      match typeMembership node with
      | .error e => .error e
      | .ok isConcept =>
        if isConcept && !(re_match NamingPattern.PASCAL identifier) then
          .ok (false, [⟨NamingPattern.PASCAL.message, identifier, line⟩])
        else
          .ok (true, [])

/-- The loop body of `TaxonomyValidator._validate_uris`, with explicit state:
remaining extracted uris, `seen_uris`, `is_valid`, and the accumulated
`self.errors`.  A non-string uri raises `AttributeError` inside
`_get_identifier` (`uri.split` on a non-string). -/
def validate_uris_loop (content : String) (data : Json) :
    List Json → List String → Bool → List ValidationError →
    Except PyError (Bool × List ValidationError)
  | [], _, is_valid, errs => .ok (is_valid, errs)
  | u :: rest, seen, is_valid, errs =>
    match u with
    | .str s =>
      let identifier := get_identifier s
      if identifier == "" || seen.contains identifier then
        validate_uris_loop content data rest seen is_valid errs
      else
        match validate_naming_patterns content data s identifier with
        | .error e => .error e
        | .ok (ok_, es) =>
          validate_uris_loop content data rest (identifier :: seen) (is_valid && ok_) (errs ++ es)
    | _ => .error .attributeError

/-- `TaxonomyValidator._validate_uris`: run the loop over the extracted uris
starting from an empty seen-set, `is_valid = True` and no errors. -/
def validate_uris (content : String) (data : Json) :
    Except PyError (Bool × List ValidationError) :=
  validate_uris_loop content data (extract_uris data) [] true []

/-- The payload of a `json.JSONDecodeError`: its `msg` and `lineno`. -/
structure JsonDecodeError where
  msg : String
  lineno : Nat

/-- `TaxonomyValidator.validate`, with the file read and the stdlib JSON
parser (external code) abstracted into the `parsed` argument: on a
`JSONDecodeError` the method appends one `ValidationError` with message
`"Invalid JSON: " + e.msg` and line `e.lineno` and returns `False`; otherwise
it runs `_validate_uris` on the parsed document. -/
def validate (content : String) (parsed : Except JsonDecodeError Json) :
    Except PyError (Bool × List ValidationError) :=
  match parsed with
  | .error e => .ok (false, [⟨"Invalid JSON: " ++ e.msg, "", e.lineno⟩])
  | .ok data => validate_uris content data

/-! Spec-side definitions, used to compare the code with the specification's
words, and shape predicates used to state preconditions on parsed documents. -/

/-- The LocalName as the specification's words define it: the text after the
last `/`, and, if that segment contains `#`, the text after the last `#` of
that segment.  (To be compared with `get_identifier`, which returns `""` when
the segment has no `#`.) -/
def specLocalName (uri : String) : String :=
  let seg := (splitOnChar '/' uri.data).getLastD []
  if seg.contains '#' then String.mk ((splitOnChar '#' seg).getLastD []) else String.mk seg

/-- Is this JSON value a string? -/
def isStrJson : Json → Bool
  | .str _ => true
  | _ => false

/-- Structural half of the precondition as the claim states it: if the
top-level document is a mapping carrying `@graph`, that value is a sequence
all of whose elements are mappings. -/
def graphElemsObjOk (doc : Json) : Bool :=
  match doc with
  | .obj fields =>
    match lookupField fields "@graph" with
    | none => true
    | some (.arr items) => items.all (fun x => match x with | .obj _ => true | _ => false)
    | some _ => false
  | _ => true

/-- The precondition exactly as the claim states it: every `@id` value
anywhere in the document (that is, every value `_extract_uris` collects) is a
string, and the top-level `@graph` sequence, when present, holds mappings. -/
def claimedPre (doc : Json) : Bool :=
  (extract_uris doc).all isStrJson && graphElemsObjOk doc

/-- An `@type` value on which the membership test `'skos:Concept' in ...`
does not raise: anything except a number, a Boolean or `None`. -/
def typeValOk : Option Json → Bool
  | some (.num _) => false
  | some (.bool _) => false
  | some .null => false
  | _ => true

/-- The amended precondition: every `@id` value anywhere is a string; if the
top level is a mapping with `@graph`, that value is a sequence of mappings
whose `@type` values (when present) are not numbers, Booleans or `None`; and
if the top level is a sequence, it does not contain the string `"@graph"` as
an element (list membership would make `self.data['@graph']` raise). -/
def validatePreOk (doc : Json) : Bool :=
  (extract_uris doc).all isStrJson &&
  (match doc with
   | .obj fields =>
     match lookupField fields "@graph" with
     | none => true
     | some (.arr items) =>
       items.all (fun x => match x with
         | .obj f => typeValOk (lookupField f "@type")
         | _ => false)
     | some _ => false
   | .arr items => !(items.any (fun x => match x with | .str t => t == "@graph" | _ => false))
   | _ => true)

/-- A node shape on which `node.get('@type', [])` membership cannot raise. -/
def NodeOk (nd : Json) : Prop :=
  ∃ f, nd = Json.obj f ∧ typeValOk (lookupField f "@type") = true

instance : DecidableEq (Except PyError (Bool × List ValidationError)) := fun a b =>
  match a, b with
  | .ok x, .ok y => if h : x = y then isTrue (by rw [h]) else isFalse (by simp [h])
  | .error x, .error y => if h : x = y then isTrue (by rw [h]) else isFalse (by simp [h])
  | .ok _, .error _ => isFalse (by simp)
  | .error _, .ok _ => isFalse (by simp)

/-! Concrete documents used by the scenario claims.  Each `contentN` string is
the single-line serialized form of `docN`, as the scenario's raw input. -/

/-- The document of the `ex:Invalid_Name` scenario. -/
def doc1 : Json := .obj [("@graph", .arr [.obj [("@id", .str "ex:Invalid_Name")]])]

/-- Raw text of `doc1`. -/
def content1 : String := "\x7b\"@graph\":[\x7b\"@id\":\"ex:Invalid_Name\"\x7d]\x7d"

/-- The `ex:Invalid_Name` scenario with an identifier that does yield the
LocalName `Invalid_Name` (the last segment carries a `#`). -/
def doc2 : Json := .obj [("@graph", .arr [.obj [("@id", .str "ex#Invalid_Name")]])]

/-- Raw text of `doc2`. -/
def content2 : String := "\x7b\"@graph\":[\x7b\"@id\":\"ex#Invalid_Name\"\x7d]\x7d"

/-- The document of the `ex:lowerConcept` scenario. -/
def doc3 : Json :=
  .obj [("@graph", .arr [.obj [("@id", .str "ex:lowerConcept"),
                               ("@type", .arr [.str "skos:Concept"])]])]

/-- Raw text of `doc3`. -/
def content3 : String :=
  "\x7b\"@graph\":[\x7b\"@id\":\"ex:lowerConcept\",\"@type\":[\"skos:Concept\"]\x7d]\x7d"

/-- The `ex:lowerConcept` scenario with an identifier that does yield the
LocalName `lowerConcept`. -/
def doc4 : Json :=
  .obj [("@graph", .arr [.obj [("@id", .str "ex#lowerConcept"),
                               ("@type", .arr [.str "skos:Concept"])]])]

/-- Raw text of `doc4`. -/
def content4 : String :=
  "\x7b\"@graph\":[\x7b\"@id\":\"ex#lowerConcept\",\"@type\":[\"skos:Concept\"]\x7d]\x7d"

/-- A document whose every `@id` is a string and whose every top-level
`@graph` element is a mapping, but whose `@type` is a number: the membership
test `'skos:Concept' in 5` raises `TypeError`. -/
def doc5 : Json := .obj [("@graph", .arr [.obj [("@id", .str "a#B"), ("@type", .num 5)]])]

/-- A concept-typed node whose LocalName `B_` fails the alphanumeric rule. -/
def doc6 : Json :=
  .obj [("@graph", .arr [.obj [("@id", .str "a#B_"),
                               ("@type", .arr [.str "skos:Concept"])]])]

/-- A node whose single-string `@type` contains `skos:Concept` strictly as a
substring, and whose LocalName starts with a lowercase letter. -/
def doc9 : Json :=
  .obj [("@graph", .arr [.obj [("@id", .str "a#lowerX"),
                               ("@type", .str "Xskos:ConceptY")]])]

/-! Helper lemmas. -/

/-- `_validate_naming_patterns` either succeeds with no error, or fails with
exactly one error whose `identifier` field is the checked LocalName. -/
theorem vnp_shape (content : String) (data : Json) (uri identifier : String)
    (b : Bool) (es : List ValidationError)
    (h : validate_naming_patterns content data uri identifier = .ok (b, es)) :
    (b = true ∧ es = []) ∨ (b = false ∧ ∃ m ln, es = [⟨m, identifier, ln⟩]) := by
  unfold validate_naming_patterns at h
  cases hg : get_node data uri with
  | error e => rw [hg] at h; exact absurd h (by simp)
  | ok node =>
    rw [hg] at h
    by_cases ha : re_match NamingPattern.ALPHANUM identifier
    · rw [ha] at h
      simp only [Bool.not_true, Bool.false_eq_true, if_false] at h
      cases ht : typeMembership node with
      | error e => rw [ht] at h; exact absurd h (by simp)
      | ok c =>
        rw [ht] at h
        dsimp only at h
        by_cases hc : (c && !(re_match NamingPattern.PASCAL identifier)) = true
        · rw [if_pos hc] at h
          simp only [Except.ok.injEq, Prod.mk.injEq] at h
          exact Or.inr ⟨h.1.symm, NamingPattern.PASCAL.message,
            get_line_number content uri, h.2.symm⟩
        · rw [if_neg hc] at h
          simp only [Except.ok.injEq, Prod.mk.injEq] at h
          exact Or.inl ⟨h.1.symm, h.2.symm⟩
    · rw [Bool.not_eq_true] at ha
      rw [ha] at h
      simp only [Bool.not_false, if_true] at h
      simp only [Except.ok.injEq, Prod.mk.injEq] at h
      exact Or.inr ⟨h.1.symm, NamingPattern.ALPHANUM.message,
        get_line_number content uri, h.2.symm⟩

/-- Loop invariant: starting from accumulated errors whose identifiers are
pairwise distinct and all recorded in `seen`, the loop of `_validate_uris`
keeps the identifiers of the final error list pairwise distinct. -/
theorem loop_nodup_aux (content : String) (data : Json) :
    ∀ (us : List Json) (seen : List String) (v : Bool) (errs : List ValidationError)
      (b : Bool) (res : List ValidationError),
      (∀ e ∈ errs, e.identifier ∈ seen) →
      (errs.map ValidationError.identifier).Nodup →
      validate_uris_loop content data us seen v errs = .ok (b, res) →
      (res.map ValidationError.identifier).Nodup := by
  intro us
  induction us with
  | nil =>
    intro seen v errs b res hmem hnd h
    simp only [validate_uris_loop, Except.ok.injEq, Prod.mk.injEq] at h
    exact h.2 ▸ hnd
  | cons u rest ih =>
    intro seen v errs b res hmem hnd h
    cases u with
    | str s =>
      simp only [validate_uris_loop] at h
      by_cases hskip : (get_identifier s == "" || seen.contains (get_identifier s)) = true
      · rw [if_pos hskip] at h
        exact ih seen v errs b res hmem hnd h
      · rw [if_neg hskip] at h
        cases hv : validate_naming_patterns content data s (get_identifier s) with
        | error e => rw [hv] at h; exact absurd h (by simp)
        | ok r =>
          obtain ⟨ok_, es⟩ := r
          rw [hv] at h
          have hnotseen : get_identifier s ∉ seen := by
            simp only [Bool.or_eq_true, not_or] at hskip
            simpa using hskip.2
          have hes : ∀ e ∈ es, e.identifier = get_identifier s := by
            rcases vnp_shape content data s (get_identifier s) ok_ es hv with
              ⟨_, hnil⟩ | ⟨_, m, ln, hone⟩
            · simp [hnil]
            · simp [hone]
          refine ih _ _ _ b res ?_ ?_ h
          · intro e he
            rcases List.mem_append.mp he with h1 | h2
            · exact List.mem_cons_of_mem _ (hmem e h1)
            · rw [hes e h2]; exact List.mem_cons_self _ _
          · rw [List.map_append]
            rcases vnp_shape content data s (get_identifier s) ok_ es hv with
              ⟨_, hnil⟩ | ⟨_, m, ln, hone⟩
            · simp [hnil, hnd]
            · rw [hone]
              simp only [List.map_cons, List.map_nil]
              rw [List.nodup_append]
              refine ⟨hnd, by simp, ?_⟩
              intro x hx
              simp only [List.mem_singleton]
              rcases List.mem_map.mp hx with ⟨e, he, hxe⟩
              intro hxid
              exact hnotseen (hxid ▸ hxe ▸ hmem e he)
    | num n => simp [validate_uris_loop] at h
    | bool bb => simp [validate_uris_loop] at h
    | null => simp [validate_uris_loop] at h
    | arr items => simp [validate_uris_loop] at h
    | obj fields => simp [validate_uris_loop] at h

/-- A list of errors with pairwise-distinct identifiers holds at most one
error for any given identifier. -/
theorem nodup_filter_length (l : List ValidationError)
    (hl : (l.map ValidationError.identifier).Nodup) (x : String) :
    (l.filter (fun e => e.identifier == x)).length ≤ 1 := by
  induction l with
  | nil => simp
  | cons e t ih =>
    simp only [List.map_cons, List.nodup_cons] at hl
    by_cases hx : (e.identifier == x) = true
    · have hex : e.identifier = x := by simpa using hx
      have ht : t.filter (fun f => f.identifier == x) = [] := by
        rw [List.filter_eq_nil_iff]
        intro f hf hfx
        have : f.identifier = x := by simpa using hfx
        exact hl.1 (List.mem_map.mpr ⟨f, hf, this ▸ hex.symm ▸ rfl⟩)
      simp [List.filter, hx, ht]
    · simp only [List.filter, hx]
      simpa using ih hl.2

/-- Loop invariant: the loop of `_validate_uris` preserves the relation
"`is_valid` holds exactly when the accumulated error list is empty". -/
theorem loop_valid_iff_aux (content : String) (data : Json) :
    ∀ (us : List Json) (seen : List String) (v : Bool) (errs : List ValidationError)
      (b : Bool) (res : List ValidationError),
      (v = true ↔ errs = []) →
      validate_uris_loop content data us seen v errs = .ok (b, res) →
      (b = true ↔ res = []) := by
  intro us
  induction us with
  | nil =>
    intro seen v errs b res hiff h
    simp only [validate_uris_loop, Except.ok.injEq, Prod.mk.injEq] at h
    rw [← h.1, ← h.2]; exact hiff
  | cons u rest ih =>
    intro seen v errs b res hiff h
    cases u with
    | str s =>
      simp only [validate_uris_loop] at h
      by_cases hskip : (get_identifier s == "" || seen.contains (get_identifier s)) = true
      · rw [if_pos hskip] at h
        exact ih seen v errs b res hiff h
      · rw [if_neg hskip] at h
        cases hv : validate_naming_patterns content data s (get_identifier s) with
        | error e => rw [hv] at h; exact absurd h (by simp)
        | ok r =>
          obtain ⟨ok_, es⟩ := r
          rw [hv] at h
          dsimp only at h
          rcases vnp_shape content data s (get_identifier s) ok_ es hv with
            ⟨hok, hnil⟩ | ⟨hok, m, ln, hone⟩
          · subst hok; subst hnil
            rw [Bool.and_true, List.append_nil] at h
            exact ih _ _ _ b res hiff h
          · subst hok; subst hone
            rw [Bool.and_false] at h
            refine ih _ _ _ b res ?_ h
            constructor
            · intro hf; exact absurd hf (by simp)
            · intro hnil; exact absurd hnil (by simp)
    | num n => simp [validate_uris_loop] at h
    | bool bb => simp [validate_uris_loop] at h
    | null => simp [validate_uris_loop] at h
    | arr items => simp [validate_uris_loop] at h
    | obj fields => simp [validate_uris_loop] at h

/-- A uri whose LocalName is already in `seen_uris` is skipped: the loop step
leaves the whole state unchanged. -/
theorem loop_skip (content : String) (data : Json) (s : String) (rest : List Json)
    (seen : List String) (v : Bool) (errs : List ValidationError)
    (h : seen.contains (get_identifier s) = true) :
    validate_uris_loop content data (Json.str s :: rest) seen v errs =
      validate_uris_loop content data rest seen v errs := by
  simp only [validate_uris_loop, h, Bool.or_true, if_true]

/-- After a failed check the loop continues into the remaining uris with the
error appended, rather than returning. -/
theorem loop_continue (content : String) (data : Json) (s : String) (rest : List Json)
    (seen : List String) (v : Bool) (errs es : List ValidationError)
    (hc : (get_identifier s == "" || seen.contains (get_identifier s)) = false)
    (hv : validate_naming_patterns content data s (get_identifier s) = .ok (false, es)) :
    validate_uris_loop content data (Json.str s :: rest) seen v errs =
      validate_uris_loop content data rest (get_identifier s :: seen) false (errs ++ es) := by
  simp only [validate_uris_loop, hc, Bool.false_eq_true, if_false, hv, Bool.and_false]

/-- Every entry of the enumeration starting at `k` has line number `≥ k`. -/
theorem enumLines_fst_ge : ∀ (ls : List (List Char)) (k : Nat) (p : Nat × List Char),
    p ∈ enumLines k ls → k ≤ p.1 := by
  intro ls
  induction ls with
  | nil => intro k p hp; simp [enumLines] at hp
  | cons l rest ih =>
    intro k p hp
    simp only [enumLines, List.mem_cons] at hp
    rcases hp with h | h
    · rw [h]
    · exact Nat.le_of_succ_le (ih (k + 1) p h)

/-- The first match of `q` among the marker-filtered enumerated lines is
either absent (no line has both the marker and `q`), or is a line with both
that has the smallest line number among all such lines. -/
theorem scan_min (q : List Char → Bool) :
    ∀ (ls : List (List Char)) (k : Nat),
      ((((enumLines k ls).filter (fun p => containsChars p.2 idMarker)).find?
          (fun p => q p.2) = none ∧
        ∀ p ∈ enumLines k ls, ¬(containsChars p.2 idMarker = true ∧ q p.2 = true)) ∨
       (∃ pr, ((enumLines k ls).filter (fun p => containsChars p.2 idMarker)).find?
          (fun p => q p.2) = some pr ∧
        pr ∈ enumLines k ls ∧ containsChars pr.2 idMarker = true ∧ q pr.2 = true ∧
        ∀ p ∈ enumLines k ls, containsChars p.2 idMarker = true → q p.2 = true →
          pr.1 ≤ p.1)) := by
  intro ls
  induction ls with
  | nil => intro k; left; simp [enumLines]
  | cons l rest ih =>
    intro k
    simp only [enumLines]
    by_cases hm : containsChars l idMarker = true
    · rw [List.filter_cons_of_pos (by simpa using hm)]
      by_cases hq : q l = true
      · right
        refine ⟨(k, l), ?_, List.mem_cons_self _ _, hm, hq, ?_⟩
        · rw [List.find?_cons_of_pos _ (by simpa using hq)]
        · intro p hp _ _
          rcases List.mem_cons.mp hp with h | h
          · rw [h]
          · exact Nat.le_of_succ_le (enumLines_fst_ge rest (k + 1) p h)
      · rw [List.find?_cons_of_neg _ (by simpa using hq)]
        rcases ih (k + 1) with ⟨hfind, hnone⟩ | ⟨pr, hfind, hmem, hprm, hprq, hmin⟩
        · left
          refine ⟨hfind, ?_⟩
          intro p hp
          rcases List.mem_cons.mp hp with h | h
          · rw [h]; rintro ⟨_, hql⟩; exact hq hql
          · exact hnone p h
        · right
          refine ⟨pr, hfind, List.mem_cons_of_mem _ hmem, hprm, hprq, ?_⟩
          intro p hp hpm hpq
          rcases List.mem_cons.mp hp with h | h
          · subst h; exact absurd hpq hq
          · exact hmin p h hpm hpq
    · rw [List.filter_cons_of_neg (by simpa using hm)]
      rcases ih (k + 1) with ⟨hfind, hnone⟩ | ⟨pr, hfind, hmem, hprm, hprq, hmin⟩
      · left
        refine ⟨hfind, ?_⟩
        intro p hp
        rcases List.mem_cons.mp hp with h | h
        · rw [h]; rintro ⟨hml, _⟩; exact hm hml
        · exact hnone p h
      · right
        refine ⟨pr, hfind, List.mem_cons_of_mem _ hmem, hprm, hprq, ?_⟩
        intro p hp hpm hpq
        rcases List.mem_cons.mp hp with h | h
        · subst h; exact absurd hpm hm
        · exact hmin p h hpm hpq

/-- On a list of well-shaped nodes, the graph scan of `get_node` cannot
raise, and the node it returns is well-shaped. -/
theorem find_node_total (s : String) :
    ∀ (items : List Json),
      (∀ x ∈ items, ∃ f, x = Json.obj f ∧ typeValOk (lookupField f "@type") = true) →
      ∃ nd, find_node s items = .ok nd ∧ NodeOk nd := by
  intro items
  induction items with
  | nil =>
    intro _
    exact ⟨Json.obj [], rfl, [], rfl, rfl⟩
  | cons x rest ih =>
    intro hall
    obtain ⟨f, hx, hf⟩ := hall x (List.mem_cons_self _ _)
    subst hx
    simp only [find_node]
    by_cases hid : (match lookupField f "@id" with
        | some (.str t) => t == s
        | _ => false) = true
    · rw [if_pos hid]
      exact ⟨Json.obj f, rfl, f, rfl, hf⟩
    · rw [if_neg hid]
      exact ih (fun y hy => hall y (List.mem_cons_of_mem _ hy))

/-- On a well-shaped node, the concept membership test cannot raise. -/
theorem typeMembership_total (nd : Json) (h : NodeOk nd) :
    ∃ b, typeMembership nd = .ok b := by
  obtain ⟨f, hnd, hf⟩ := h
  subst hnd
  simp only [typeMembership]
  cases ht : lookupField f "@type" with
  | none => exact ⟨false, rfl⟩
  | some v =>
    cases v with
    | str s => exact ⟨_, rfl⟩
    | arr items => exact ⟨_, rfl⟩
    | obj tf => exact ⟨_, rfl⟩
    | num n => rw [ht] at hf; simp [typeValOk] at hf
    | bool b => rw [ht] at hf; simp [typeValOk] at hf
    | null => rw [ht] at hf; simp [typeValOk] at hf

/-- Under the amended precondition, `get_node` on a top-level sequence or
mapping cannot raise, and returns a well-shaped node. -/
theorem get_node_total (doc : Json) (hpre : validatePreOk doc = true) (s : String) :
    (∃ us, doc = Json.arr us) ∨ (∃ fs, doc = Json.obj fs) →
    ∃ nd, get_node doc s = .ok nd ∧ NodeOk nd := by
  rintro (⟨us, rfl⟩ | ⟨fs, rfl⟩)
  · simp only [validatePreOk, Bool.and_eq_true] at hpre
    simp only [get_node]
    have h2 : (us.any fun x => match x with | Json.str t => t == "@graph" | _ => false)
        = false := by
      have := hpre.2
      rwa [Bool.not_eq_true'] at this
    rw [if_neg (by simp [h2])]
    exact ⟨Json.obj [], rfl, [], rfl, rfl⟩
  · simp only [validatePreOk, Bool.and_eq_true] at hpre
    simp only [get_node]
    cases hg : lookupField fs "@graph" with
    | none => exact ⟨Json.obj [], rfl, [], rfl, rfl⟩
    | some g =>
      cases g with
      | arr items =>
        refine find_node_total s items ?_
        have := hpre.2
        rw [hg] at this
        simp only [List.all_eq_true] at this
        intro x hx
        have hX := this x hx
        cases x with
        | obj f => exact ⟨f, rfl, by simpa using hX⟩
        | str t => simp at hX
        | num n => simp at hX
        | bool b => simp at hX
        | null => simp at hX
        | arr its => simp at hX
      | str t => rw [hg] at hpre; simp at hpre
      | obj gf => rw [hg] at hpre; simp at hpre
      | num n => rw [hg] at hpre; simp at hpre
      | bool b => rw [hg] at hpre; simp at hpre
      | null => rw [hg] at hpre; simp at hpre

/-- If node lookup is total and well-shaped on `doc`, the per-name check
`_validate_naming_patterns` cannot raise. -/
theorem vnp_total (content : String) (doc : Json)
    (hnode : ∀ s, ∃ nd, get_node doc s = .ok nd ∧ NodeOk nd) (s i : String) :
    ∃ r, validate_naming_patterns content doc s i = .ok r := by
  obtain ⟨nd, hget, hok⟩ := hnode s
  simp only [validate_naming_patterns, hget]
  by_cases ha : re_match NamingPattern.ALPHANUM i = true
  · rw [ha]
    simp only [Bool.not_true, Bool.false_eq_true, if_false]
    obtain ⟨c, hc⟩ := typeMembership_total nd hok
    rw [hc]
    dsimp only
    by_cases hcc : (c && !re_match NamingPattern.PASCAL i) = true
    · rw [if_pos hcc]; exact ⟨_, rfl⟩
    · rw [if_neg hcc]; exact ⟨_, rfl⟩
  · rw [Bool.not_eq_true] at ha
    rw [ha]
    simp only [Bool.not_false, if_true]
    exact ⟨_, rfl⟩

/-- The loop of `_validate_uris` cannot raise when every pending uri is a
string and the per-name check is total. -/
theorem loop_total (content : String) (doc : Json)
    (hvnp : ∀ s i, ∃ r, validate_naming_patterns content doc s i = .ok r) :
    ∀ (us : List Json) (seen : List String) (v : Bool) (errs : List ValidationError),
      (∀ u ∈ us, ∃ s, u = Json.str s) →
      ∃ r, validate_uris_loop content doc us seen v errs = .ok r := by
  intro us
  induction us with
  | nil => intro seen v errs _; exact ⟨_, rfl⟩
  | cons u rest ih =>
    intro seen v errs hall
    obtain ⟨s, hu⟩ := hall u (List.mem_cons_self _ _)
    subst hu
    simp only [validate_uris_loop]
    by_cases hskip : (get_identifier s == "" || seen.contains (get_identifier s)) = true
    · rw [if_pos hskip]
      exact ih seen v errs (fun y hy => hall y (List.mem_cons_of_mem _ hy))
    · rw [if_neg hskip]
      obtain ⟨⟨ok_, es⟩, hr⟩ := hvnp s (get_identifier s)
      rw [hr]
      exact ih _ _ _ (fun y hy => hall y (List.mem_cons_of_mem _ hy))

/-- Under the amended precondition, `_validate_uris` cannot raise. -/
theorem validate_total (content : String) (doc : Json) (hpre : validatePreOk doc = true) :
    ∃ r, validate_uris content doc = .ok r := by
  cases doc with
  | str s => exact ⟨(true, []), rfl⟩
  | num n => exact ⟨(true, []), rfl⟩
  | bool b => exact ⟨(true, []), rfl⟩
  | null => exact ⟨(true, []), rfl⟩
  | arr items =>
    refine loop_total content (Json.arr items)
      (vnp_total content _ (fun s => get_node_total _ hpre s (Or.inl ⟨items, rfl⟩)))
      _ [] true [] ?_
    have hstr := (Bool.and_eq_true .. ▸ hpre).1
    simp only [List.all_eq_true] at hstr
    intro u hu
    have := hstr u hu
    cases u with
    | str s => exact ⟨s, rfl⟩
    | num n => simp [isStrJson] at this
    | bool b => simp [isStrJson] at this
    | null => simp [isStrJson] at this
    | arr its => simp [isStrJson] at this
    | obj f => simp [isStrJson] at this
  | obj fields =>
    refine loop_total content (Json.obj fields)
      (vnp_total content _ (fun s => get_node_total _ hpre s (Or.inr ⟨fields, rfl⟩)))
      _ [] true [] ?_
    have hstr := (Bool.and_eq_true .. ▸ hpre).1
    simp only [List.all_eq_true] at hstr
    intro u hu
    have := hstr u hu
    cases u with
    | str s => exact ⟨s, rfl⟩
    | num n => simp [isStrJson] at this
    | bool b => simp [isStrJson] at this
    | null => simp [isStrJson] at this
    | arr its => simp [isStrJson] at this
    | obj f => simp [isStrJson] at this

/-- A string starting with `Invalid JSON: ` differs from any string whose
first character is not `I`. -/
theorem invalid_msg_ne (m t : String) (c : Char) (ht : t.data.head? = some c)
    (hc : c ≠ 'I') : ("Invalid JSON: " ++ m) ≠ t := by
  intro h
  have hd : ("Invalid JSON: ".data ++ m.data).head? = t.data.head? := by
    rw [← String.data_append, h]
  rw [ht] at hd
  have h0 : ("Invalid JSON: ".data ++ m.data).head? = some 'I' := rfl
  rw [h0] at hd
  exact hc (Option.some.inj hd).symm

/-- A string starting with `Invalid JSON: ` is never empty. -/
theorem invalid_msg_nonempty (m : String) : ("Invalid JSON: " ++ m) ≠ "" := by
  intro h
  have hd := congrArg String.data h
  rw [String.data_append] at hd
  exact absurd hd (by simp [show "Invalid JSON: ".data = 'I' :: "nvalid JSON: ".data from rfl])

/-! Claim theorems. -/

/-- C1 (amended): the LocalName derived by `_get_identifier` agrees with the
spec's LocalName (text after the last `/`, then after that segment's last
`#`) exactly when the segment after the last `/` contains `#`; when it does
not, the code derives the empty string (no usable LocalName), not the text
after the last `/`. -/
theorem claim_C1_amended (uri : String) :
    (((splitOnChar '/' uri.data).getLastD []).contains '#' = true →
      get_identifier uri = specLocalName uri) ∧
    (((splitOnChar '/' uri.data).getLastD []).contains '#' = false →
      get_identifier uri = "") := by
  constructor
  · intro h
    simp only [get_identifier, specLocalName, h, if_true]
  · intro h
    simp only [get_identifier, specLocalName, h, Bool.false_eq_true, if_false]

/-- C1 witness: a concrete identifier with `#` where code and spec LocalName
agree, and one without `#` where the code yields the empty string. -/
theorem claim_C1_witness :
    get_identifier "a#B" = specLocalName "a#B" ∧ get_identifier "ab" = "" :=
  ⟨(claim_C1_amended "a#B").1 (by decide), (claim_C1_amended "ab").2 (by decide)⟩

/-- C1 counterexample: for `ex:validProp` the spec's LocalName is the whole
string (no `/`), but `_get_identifier` returns the empty string, because the
last segment contains no `#`. -/
theorem claim_C1_counterexample :
    specLocalName "ex:validProp" = "ex:validProp" ∧
    get_identifier "ex:validProp" = "" ∧
    ("ex:validProp" : String) ≠ "" := by decide

/-- C2 counterexample: validating `{"@graph":[{"@id":"ex:Invalid_Name"}]}`
yields a valid result with zero violations (the identifier has no `#`, so it
yields no LocalName and is skipped), not one ALPHANUM violation with an
invalid result as the claim states. -/
theorem claim_C2_counterexample :
    validate content1 (Except.ok doc1) = .ok (true, []) ∧
    ((true, ([] : List ValidationError)) ≠
      (false, [⟨NamingPattern.ALPHANUM.message, "Invalid_Name", 1⟩])) := by
  constructor
  · simp only [validate, validate_uris, doc1, extract_uris, extractFromFields,
      extractFromItems, lookupField]
    decide
  · decide

/-- C2 (amended): with an identifier whose last segment carries a `#`
(`ex#Invalid_Name`), validation produces exactly one violation, with the
ALPHANUM message, for LocalName `Invalid_Name` at line 1, and the overall
result is invalid. -/
theorem claim_C2_amended_run :
    validate content2 (Except.ok doc2) =
      .ok (false, [⟨NamingPattern.ALPHANUM.message, "Invalid_Name", 1⟩]) := by
  simp only [validate, validate_uris, doc2, extract_uris, extractFromFields,
    extractFromItems, lookupField]
  decide

/-- C3 counterexample: validating
`{"@graph":[{"@id":"ex:lowerConcept","@type":["skos:Concept"]}]}` yields a
valid result with zero violations (the identifier has no `#`, so it is
skipped), not one PASCAL violation with an invalid result. -/
theorem claim_C3_counterexample :
    validate content3 (Except.ok doc3) = .ok (true, []) ∧
    ((true, ([] : List ValidationError)) ≠
      (false, [⟨NamingPattern.PASCAL.message, "lowerConcept", 1⟩])) := by
  constructor
  · simp only [validate, validate_uris, doc3, extract_uris, extractFromFields,
      extractFromItems, lookupField]
    decide
  · decide

/-- C3 (amended): with `ex#lowerConcept` typed `skos:Concept`, validation
produces exactly one violation, with the PASCAL message, for LocalName
`lowerConcept` (which passes ALPHANUM: the single error is not the ALPHANUM
one), and the overall result is invalid. -/
theorem claim_C3_amended_run :
    validate content4 (Except.ok doc4) =
      .ok (false, [⟨NamingPattern.PASCAL.message, "lowerConcept", 1⟩]) ∧
    NamingPattern.PASCAL.message ≠ NamingPattern.ALPHANUM.message := by
  constructor
  · simp only [validate, validate_uris, doc4, extract_uris, extractFromFields,
      extractFromItems, lookupField]
    decide
  · decide

/-- C4: whenever the checked LocalName fails the ALPHANUM pattern and the
per-name check returns (rather than raising), the result is invalid and the
errors appended by this check are exactly one ALPHANUM error carrying that
LocalName — no PASCAL error, even if the node is typed as a concept: the
ALPHANUM failure short-circuits the concept rule. -/
theorem claim_C4 (content : String) (data : Json) (uri identifier : String)
    (b : Bool) (es : List ValidationError)
    (h : validate_naming_patterns content data uri identifier = .ok (b, es))
    (ha : re_match NamingPattern.ALPHANUM identifier = false) :
    b = false ∧
    es = [⟨NamingPattern.ALPHANUM.message, identifier, get_line_number content uri⟩] ∧
    ∀ e ∈ es, e.message ≠ NamingPattern.PASCAL.message := by
  unfold validate_naming_patterns at h
  cases hg : get_node data uri with
  | error e => rw [hg] at h; exact absurd h (by simp)
  | ok node =>
    rw [hg, ha] at h
    simp only [Bool.not_false, if_true] at h
    simp only [Except.ok.injEq, Prod.mk.injEq] at h
    obtain ⟨hb, hes⟩ := h
    subst hb; subst hes
    refine ⟨rfl, rfl, ?_⟩
    intro e he
    simp only [List.mem_singleton] at he
    subst he
    show NamingPattern.ALPHANUM.message ≠ NamingPattern.PASCAL.message
    decide

/-- C4 witness: the concept-typed node `a#B_` whose LocalName `B_` fails
ALPHANUM gets exactly the one ALPHANUM error and no PASCAL error. -/
theorem claim_C4_witness :
    (false = false) ∧
    ([⟨NamingPattern.ALPHANUM.message, "B_", 0⟩] : List ValidationError) =
      [⟨NamingPattern.ALPHANUM.message, "B_", get_line_number "" "a#B_"⟩] ∧
    ∀ e ∈ ([⟨NamingPattern.ALPHANUM.message, "B_", 0⟩] : List ValidationError),
      e.message ≠ NamingPattern.PASCAL.message :=
  claim_C4 "" doc6 "a#B_" "B_" false [⟨NamingPattern.ALPHANUM.message, "B_", 0⟩]
    (by decide) (by decide)

/-- C5: in any completed validation the output list holds at most one
violation per LocalName, and a uri whose LocalName is already in `seen_uris`
is skipped outright by the loop — it is never evaluated and contributes no
error, even when it comes from a different full Identifier. -/
theorem claim_C5 :
    (∀ (content : String) (data : Json) (b : Bool) (errs : List ValidationError),
      validate_uris content data = .ok (b, errs) →
      ∀ l : String, (errs.filter (fun e => e.identifier == l)).length ≤ 1) ∧
    (∀ (content : String) (data : Json) (s : String) (rest : List Json)
        (seen : List String) (v : Bool) (errs : List ValidationError),
      seen.contains (get_identifier s) = true →
      validate_uris_loop content data (Json.str s :: rest) seen v errs =
        validate_uris_loop content data rest seen v errs) := by
  constructor
  · intro content data b errs h l
    unfold validate_uris at h
    have hnd := loop_nodup_aux content data (extract_uris data) [] true [] b errs
      (by intro e he; simp at he) (by simp) h
    exact nodup_filter_length errs hnd l
  · exact loop_skip

/-- C5 witness: the at-most-one bound instantiated on a concrete run, and a
concrete skipped duplicate LocalName leaving the loop state unchanged. -/
theorem claim_C5_witness :
    (([] : List ValidationError).filter (fun e => e.identifier == "x")).length ≤ 1 ∧
    validate_uris_loop content1 doc1 [Json.str "a#Name"] ["Name"] true [] =
      validate_uris_loop content1 doc1 [] ["Name"] true [] :=
  ⟨claim_C5.1 content1 doc1 true []
      (by simp only [validate_uris, content1, doc1, extract_uris, extractFromFields,
            extractFromItems, lookupField]
          decide) "x",
   claim_C5.2 content1 doc1 "a#Name" [] ["Name"] true [] (by decide)⟩

/-- C6: any completed validation returns `True` exactly when the accumulated
error list is empty, and the validation is not fail-fast — after a failed
per-name check the loop records the error and continues with the remaining
uris instead of returning. -/
theorem claim_C6 :
    (∀ (content : String) (data : Json) (b : Bool) (errs : List ValidationError),
      validate_uris content data = .ok (b, errs) → (b = true ↔ errs = [])) ∧
    (∀ (content : String) (data : Json) (s : String) (rest : List Json)
        (seen : List String) (v : Bool) (errs es : List ValidationError),
      (get_identifier s == "" || seen.contains (get_identifier s)) = false →
      validate_naming_patterns content data s (get_identifier s) = .ok (false, es) →
      validate_uris_loop content data (Json.str s :: rest) seen v errs =
        validate_uris_loop content data rest (get_identifier s :: seen) false (errs ++ es)) := by
  constructor
  · intro content data b errs h
    unfold validate_uris at h
    exact loop_valid_iff_aux content data (extract_uris data) [] true [] b errs (by simp) h
  · exact loop_continue

/-- C6 witness: a concrete invalid run with a non-empty error list, and a
concrete failing step after which the loop continues with the error
appended. -/
theorem claim_C6_witness :
    ((false = true) ↔ ([⟨NamingPattern.ALPHANUM.message, "Invalid_Name", 1⟩] :
        List ValidationError) = []) ∧
    validate_uris_loop content2 doc2 [Json.str "ex#Invalid_Name"] [] true [] =
      validate_uris_loop content2 doc2 [] (get_identifier "ex#Invalid_Name" :: []) false
        ([] ++ [⟨NamingPattern.ALPHANUM.message, "Invalid_Name", 1⟩]) :=
  ⟨claim_C6.1 content2 doc2 false [⟨NamingPattern.ALPHANUM.message, "Invalid_Name", 1⟩]
      (by simp only [validate_uris, content2, doc2, extract_uris, extractFromFields,
            extractFromItems, lookupField]
          decide),
   claim_C6.2 content2 doc2 "ex#Invalid_Name" [] [] true []
      [⟨NamingPattern.ALPHANUM.message, "Invalid_Name", 1⟩] (by decide) (by decide)⟩

/-- C7: `get_line_number` either returns 0 and no 1-indexed line of the raw
text contains both the `"@id"` marker and the identifier, or it returns the
line number of such a line that is smallest among all lines containing
both. -/
theorem claim_C7 (content uri : String) :
    (get_line_number content uri = 0 ∧
      ∀ p ∈ enumLines 1 (splitOnChar '\n' content.data),
        ¬(containsChars p.2 idMarker = true ∧ containsChars p.2 uri.data = true)) ∨
    (∃ p ∈ enumLines 1 (splitOnChar '\n' content.data),
      p.1 = get_line_number content uri ∧
      containsChars p.2 idMarker = true ∧ containsChars p.2 uri.data = true ∧
      ∀ p' ∈ enumLines 1 (splitOnChar '\n' content.data),
        containsChars p'.2 idMarker = true → containsChars p'.2 uri.data = true →
          get_line_number content uri ≤ p'.1) := by
  rcases scan_min (fun l => containsChars l uri.data) (splitOnChar '\n' content.data) 1 with
    ⟨hfind, hnone⟩ | ⟨pr, hfind, hmem, hprm, hprq, hmin⟩
  · left
    refine ⟨?_, hnone⟩
    simp only [get_line_number, map_ids_to_lines, hfind]
  · right
    have hr : get_line_number content uri = pr.1 := by
      simp only [get_line_number, map_ids_to_lines, hfind]
    refine ⟨pr, hmem, hr.symm, hprm, hprq, ?_⟩
    intro p' hp' h1 h2
    rw [hr]
    exact hmin p' hp' h1 h2

/-- C7 witness: the characterization instantiated on a concrete raw text and
identifier. -/
theorem claim_C7_witness :
    (get_line_number content2 "ex#Invalid_Name" = 0 ∧
      ∀ p ∈ enumLines 1 (splitOnChar '\n' content2.data),
        ¬(containsChars p.2 idMarker = true ∧
          containsChars p.2 ("ex#Invalid_Name" : String).data = true)) ∨
    (∃ p ∈ enumLines 1 (splitOnChar '\n' content2.data),
      p.1 = get_line_number content2 "ex#Invalid_Name" ∧
      containsChars p.2 idMarker = true ∧
      containsChars p.2 ("ex#Invalid_Name" : String).data = true ∧
      ∀ p' ∈ enumLines 1 (splitOnChar '\n' content2.data),
        containsChars p'.2 idMarker = true →
        containsChars p'.2 ("ex#Invalid_Name" : String).data = true →
          get_line_number content2 "ex#Invalid_Name" ≤ p'.1) :=
  claim_C7 content2 "ex#Invalid_Name"

/-- C8: when the stdlib JSON parser fails, `validate` returns an invalid
result whose single recorded error is the parse error: its message is the
parser's message prefixed by `Invalid JSON: ` (hence non-empty), its line is
the parser's reported line, and the list holds no naming-convention
violation (no error carrying any of the three naming-pattern messages). -/
theorem claim_C8 (content : String) (e : JsonDecodeError) :
    validate content (.error e) =
      .ok (false, [⟨"Invalid JSON: " ++ e.msg, "", e.lineno⟩]) ∧
    ("Invalid JSON: " ++ e.msg) ≠ "" ∧
    ([⟨"Invalid JSON: " ++ e.msg, "", e.lineno⟩] : List ValidationError).filter
      (fun er => er.message == NamingPattern.ALPHANUM.message ||
                 er.message == NamingPattern.PASCAL.message ||
                 er.message == NamingPattern.CAMEL.message) = [] := by
  refine ⟨rfl, invalid_msg_nonempty e.msg, ?_⟩
  simp only [List.filter]
  rw [beq_eq_false_iff_ne.mpr
        (invalid_msg_ne e.msg NamingPattern.ALPHANUM.message 'M' rfl (by decide)),
      beq_eq_false_iff_ne.mpr
        (invalid_msg_ne e.msg NamingPattern.PASCAL.message 'C' rfl (by decide)),
      beq_eq_false_iff_ne.mpr
        (invalid_msg_ne e.msg NamingPattern.CAMEL.message 'P' rfl (by decide))]
  rfl

/-- C8 witness: the parse-failure behaviour instantiated on a concrete
parser error. -/
theorem claim_C8_witness :
    validate "x" (.error ⟨"boom", 3⟩) =
      .ok (false, [⟨"Invalid JSON: " ++ ("boom" : String), "", 3⟩]) ∧
    ("Invalid JSON: " ++ ("boom" : String)) ≠ "" ∧
    ([⟨"Invalid JSON: " ++ ("boom" : String), "", 3⟩] : List ValidationError).filter
      (fun er => er.message == NamingPattern.ALPHANUM.message ||
                 er.message == NamingPattern.PASCAL.message ||
                 er.message == NamingPattern.CAMEL.message) = [] :=
  claim_C8 "x" ⟨"boom", 3⟩

/-- C9: when `@type` is a single string, the concept rule fires exactly when
`skos:Concept` occurs as a substring of it — in particular it fires for
`Xskos:ConceptY`, which is not equal to the marker — while for a
sequence-valued `@type` it fires exactly on element membership; on a node
with `@type` `Xskos:ConceptY` and lowercase LocalName, validation records
the PASCAL error. -/
theorem claim_C9 :
    (∀ (fields : List (String × Json)) (s : String),
      lookupField fields "@type" = some (Json.str s) →
      typeMembership (Json.obj fields) = .ok (containsChars s.data conceptMarker)) ∧
    (∀ (fields : List (String × Json)) (items : List Json),
      lookupField fields "@type" = some (Json.arr items) →
      typeMembership (Json.obj fields) =
        .ok (items.any (fun x => match x with
          | Json.str t => t == "skos:Concept"
          | _ => false))) ∧
    containsChars ("Xskos:ConceptY" : String).data conceptMarker = true ∧
    (("Xskos:ConceptY" : String) == "skos:Concept") = false ∧
    validate_uris "" doc9 = .ok (false, [⟨NamingPattern.PASCAL.message, "lowerX", 0⟩]) := by
  refine ⟨?_, ?_, by decide, by decide, ?_⟩
  · intro fields s h
    simp only [typeMembership, h]
  · intro fields items h
    simp only [typeMembership, h]
  · simp only [validate_uris, doc9, extract_uris, extractFromFields, extractFromItems,
      lookupField]
    decide

/-- C9 witness: the two general membership characterizations instantiated on
concrete `@type` values. -/
theorem claim_C9_witness :
    typeMembership (Json.obj [("@type", Json.str "Xskos:ConceptY")]) =
      .ok (containsChars ("Xskos:ConceptY" : String).data conceptMarker) ∧
    typeMembership (Json.obj [("@type", Json.arr [Json.str "skos:Concept"])]) =
      .ok ([Json.str "skos:Concept"].any (fun x => match x with
        | Json.str t => t == "skos:Concept"
        | _ => false)) :=
  ⟨claim_C9.1 [("@type", Json.str "Xskos:ConceptY")] "Xskos:ConceptY" rfl,
   claim_C9.2.1 [("@type", Json.arr [Json.str "skos:Concept"])] [Json.str "skos:Concept"] rfl⟩

/-- C10 counterexample: `doc5` satisfies the precondition exactly as the
claim states it (every `@id` value is a string, every element of the
top-level `@graph` sequence is a mapping), yet validation raises a
`TypeError`, because the node's `@type` is the number 5 and
`'skos:Concept' in 5` is not a valid membership test. -/
theorem claim_C10_counterexample :
    claimedPre doc5 = true ∧ validate_uris "" doc5 = .error .typeError := by
  constructor
  · simp only [claimedPre, doc5, extract_uris, extractFromFields, extractFromItems,
      lookupField]
    decide
  · simp only [validate_uris, doc5, extract_uris, extractFromFields, extractFromItems,
      lookupField]
    decide

/-- C10 (amended): under the strengthened precondition — every `@id` value is
a string; a top-level `@graph` value, when present, is a sequence of mappings
whose `@type` values are not numbers, Booleans or `None`; and a top-level
sequence does not contain the string `"@graph"` — validation completes
without raising. -/
theorem claim_C10_amended (content : String) (doc : Json)
    (h : validatePreOk doc = true) :
    ∃ r, validate_uris content doc = .ok r :=
  validate_total content doc h

/-- C10 witness: totality instantiated on a concrete well-shaped document. -/
theorem claim_C10_witness : ∃ r, validate_uris content4 doc4 = .ok r :=
  claim_C10_amended content4 doc4
    (by simp only [validatePreOk, doc4, extract_uris, extractFromFields, extractFromItems,
          lookupField]
        decide)

end TaxonomyScript
